import Mathlib

/-!
# Verification of the noaapaleopy table-assembly core

A shallow embedding of the pure core of `noaapaleopy` (files
`src/noaapaleopy/noaadataset.py` and `src/noaapaleopy/dataset.py`):

* the header-skip accounting of `NOAATable.from_txtfile` (counters
  `skiprows` / `intermediate`);
* the parameter-declaration line parsing (first whitespace token is the
  name, the remainder is `line.replace(name, "")` split on commas);
* the duplicate-column renaming (the `Counter`-based suffix pools popped
  per occurrence);
* the age-unit canonicalization table of `NOAAParam.__init__`;
* the missing-value sentinel lists passed by the two ingestion paths;
* the metadata traversal of `NOAADataSet.__init__` / `get_data`
  (required fields, event construction from `geo.geometry.coordinates`,
  per-file table merge with `OrderedDict.update` semantics).

Numbers that the Python code holds as floats (coordinates, data cells)
are modelled as rationals; the sentinel values involved are integers, so
nothing is lost.  File-system and network effects are abstracted by an
oracle mapping a file URL to the parsed table, `none` meaning that the
download or the parse raised.
-/

/-! ## Python string primitives

The Python `str` methods used by the parsing code, written over the
character list of the string so that they compute by plain structural
recursion: `str.startswith`, `str.split` with a one-character separator
(keeping empty pieces), `str.split()` with no separator (splitting on
whitespace runs, dropping empty pieces), `str.strip`, and
`str.replace(old, "")` for a non-empty `old` (deleting every
non-overlapping occurrence, left to right). -/

def pyIsSpace (c : Char) : Bool :=
  c = ' ' || c = '\t' || c = '\n' || c = '\r' || c = '\x0b' || c = '\x0c'

def strStartsWith (s pre : String) : Bool :=
  pre.data.isPrefixOf s.data

def splitByAux (p : Char → Bool) : List Char → List Char → List (List Char)
  | [], acc => [acc.reverse]
  | c :: cs, acc =>
    if p c then acc.reverse :: splitByAux p cs []
    else splitByAux p cs (c :: acc)

/-- `s.split(sep)` for a one-character separator: empty pieces kept. -/
def splitChar (sep : Char) (s : String) : List String :=
  (splitByAux (fun c => c = sep) s.data []).map List.asString

/-- `s.split()`: split on whitespace runs, empty pieces dropped. -/
def pySplit (s : String) : List String :=
  ((splitByAux pyIsSpace s.data []).filter (fun t => t ≠ [])).map List.asString

/-- `s.strip()`: whitespace removed from both ends. -/
def strTrim (s : String) : String :=
  (((s.data.dropWhile pyIsSpace).reverse.dropWhile pyIsSpace).reverse).asString

def removeAllAux (pat : List Char) : Nat → List Char → List Char
  | _, [] => []
  | 0, l => l
  | fuel + 1, c :: cs =>
    if pat ≠ [] ∧ pat.isPrefixOf (c :: cs) then
      removeAllAux pat fuel (cs.drop (pat.length - 1))
    else c :: removeAllAux pat fuel cs

/-- `s.replace(pat, "")` for non-empty `pat`: every non-overlapping
occurrence deleted, scanning left to right.  The fuel starts at the
length of the string and each step consumes at least one character, so
it never runs out. -/
def strRemoveAll (pat s : String) : String :=
  (removeAllAux pat.data s.data.length s.data).asString

/-! ## Header-skip accounting (`NOAATable.from_txtfile`, lines 122-136)

The Python loop keeps two counters, `skiprows` and `intermediate`; a line
starting with `#` executes `skiprows = skiprows + 1 + intermediate;
intermediate = 0`, any other line executes `intermediate += 1`. -/

def skipStep (st : Nat × Nat) (l : String) : Nat × Nat :=
  if strStartsWith l ("#") then (st.1 + 1 + st.2, 0) else (st.1, st.2 + 1)

def skiprowsOf (lines : List String) : Nat :=
  (lines.foldl skipStep (0, 0)).1

/-! ## Parameter-declaration line parsing (`from_txtfile`, lines 139-149)

`p = line.split()[0]` (whitespace split, empties dropped; `IndexError` on a
blank line), `l = line.replace(p, "")` (deletes every occurrence of `p`),
then `l.split(",")`, each component stripped, at most nine components
kept (`what, material, error, units, seasonality, archive, detail,
method, format`). -/

def componentNames : List String :=
  ["what", "material", "error", "units", "seasonality",
   "archive", "detail", "method", "format"]

structure ParamDecl where
  name : String
  fields : List String
deriving DecidableEq

def parseParamLine (line : String) : Option ParamDecl :=
  match pySplit line with
  | [] => none
  | p :: _ =>
    let rest := strRemoveAll p line
    some { name := strTrim p
           fields := ((splitChar ',' rest).map strTrim).take componentNames.length }

/-! ## Duplicate-column renaming (`from_txtfile`, lines 153-158)

The Python builds, from `Counter(columns)`, a pool of suffixes per name:
for a name with count `b > 1` the pool is `["", "1", ..., str(b-1)]`,
for a unique name the pool is empty; each occurrence pops the front of
its pool and appends it to the name. -/

def suffixPool (b : Nat) : List String :=
  (List.range b).map (fun i => if i = 0 then "" else toString i)

def initPool (cols : List String) (x : String) : List String :=
  if 1 < cols.count x then suffixPool (cols.count x) else []

def resolveAux (d : String → List String) : List String → List String
  | [] => []
  | x :: xs =>
    match d x with
    | [] => x :: resolveAux d xs
    | s :: rest => (x ++ s) :: resolveAux (fun y => if y = x then rest else d y) xs

def resolveColumns (cols : List String) : List String :=
  resolveAux (initPool cols) cols

/-- What one renaming step emits given the current pool of a name. -/
def emitName (pool : List String) (x : String) : String :=
  match pool with
  | [] => x
  | s :: _ => x ++ s

/-! ## Age-unit canonicalization (`NOAAParam.__init__`, lines 74-97) -/

def ages : List (String × String) :=
  [("calendar kiloyear before present", "ka BP"),
   ("calendar kiloyears before present", "ka BP"),
   ("cal kyr BP", "ka BP"),
   ("calendar kyears before present", "ka BP"),
   ("Age_kyr", "ka BP"),
   ("cal ka BP", "ka BP"),
   ("calendar ka before 1950AD", "ka BP"),
   ("calendar kiloyears before 1950 AD", "ka BP"),
   ("calendar kiloyears before 1950", "ka BP"),
   ("calendar Kyears before present", "ka BP"),
   ("kyr BP", "ka BP"),
   ("kyrs", "ka BP"),
   ("calendar ka before present", "ka BP"),
   ("cal kiloyears before present", "ka BP")]

structure NOAAParam where
  name : String
  long_name : String
  unit : Option String
deriving DecidableEq

/-- `NOAAParam.__init__`: the unit is replaced by its canonical form when it
is a key of the `ages` table (`None` is never a key). -/
def mkNOAAParam (name long_name : String) (unit : Option String) : NOAAParam :=
  { name := name
    long_name := long_name
    unit := match unit with
            | some u => some ((List.lookup u ages).getD u)
            | none => none }

/-! ## Missing-value sentinels

`NOAATable.from_txtfile` (line 152) passes `na_values = [-999.00, -9999.00]`
to the tabular reader; `NOAAStudy.get_data` and `NOAAStudy.inspect_data`
(`dataset.py`, lines 201, 241, 249) pass `na_values = -999.00` only.  A
numeric cell equal to a value of the active list becomes "no data". -/

inductive Cell
  | na
  | val (q : ℚ)
deriving DecidableEq

def fromTxtfileNaValues : List ℚ := [-999, -9999]

def studyGetDataNaValues : List ℚ := [-999]

def convertCell (naValues : List ℚ) (x : ℚ) : Cell :=
  if x ∈ naValues then Cell.na else Cell.val x

/-! ## Data model for the assembly pipeline -/

abbrev RowT := List Cell

structure NOAAEvent where
  label : String
  lat : ℚ
  lon : ℚ
deriving DecidableEq

structure NOAATableModel where
  params : List (String × NOAAParam)
  data : List RowT
deriving DecidableEq

structure DataFile where
  fileUrl : String
deriving DecidableEq

structure PaleoData where
  dataFile : List DataFile
deriving DecidableEq

structure Site where
  siteName : String
  coordinates : List ℚ
  paleoData : List PaleoData
deriving DecidableEq

structure Metadata where
  onlineResourceLink : Option String
  doi : Option String
  studyName : Option String
  site : Option (List Site)
deriving DecidableEq

inductive BuildError
  | missingField (f : String)
deriving DecidableEq

structure NOAADataSet where
  id : Nat
  link : String
  doi : String
  title : String
  events : List NOAAEvent
  params : List (String × NOAAParam)
  data : List RowT
deriving DecidableEq

/-- Mutable state accumulated by `NOAADataSet.get_data`. -/
structure GDState where
  events : List NOAAEvent
  params : List (String × NOAAParam)
  data : List RowT
deriving DecidableEq

/-! ## `OrderedDict.update` semantics for the parameter mapping -/

/-- Insert one key into an ordered association list: an existing key keeps
its position and gets the new value, a new key is appended at the end. -/
def odInsert (m : List (String × NOAAParam)) (k : String) (v : NOAAParam) :
    List (String × NOAAParam) :=
  if m.any (fun p => p.1 == k) then
    m.map (fun p => if p.1 = k then (k, v) else p)
  else m ++ [(k, v)]

/-- `self.params.update(t.params)`: fold `odInsert` over the new table's
entries in order. -/
def odUpdate (m t : List (String × NOAAParam)) : List (String × NOAAParam) :=
  t.foldl (fun acc p => odInsert acc p.1 p.2) m

/-- Parameter mapping of a DataSet assembled from a sequence of parsed
tables (the accumulation performed by `get_data`, line 273). -/
def mergeAllParams (ts : List (List (String × NOAAParam))) :
    List (String × NOAAParam) :=
  ts.foldl odUpdate []

/-- The parameter the claim expects for a key: the value of the latest
table containing the key. -/
def lastWins (ts : List (List (String × NOAAParam))) (k : String) :
    Option NOAAParam :=
  ts.foldl (fun acc t =>
    match List.lookup k t with
    | some v => some v
    | none => acc) none

/-! ## `NOAADataSet.get_data` / `__init__` control flow (lines 210-273) -/

/-- `lat = coordinates[0]; lon = coordinates[1]` followed by
`NOAAEvent(label=siteName, lon=lon, lat=lat)`; a too-short coordinate
array raises (propagated to the caller). -/
def eventOfSite (s : Site) : Option NOAAEvent :=
  match s.coordinates[0]?, s.coordinates[1]? with
  | some c0, some c1 => some { label := s.siteName, lat := c0, lon := c1 }
  | _, _ => none

/-- `local_file.split(".")[-1]` on the cached copy named after the last
URL segment. -/
def fileExt (url : String) : String :=
  ((splitChar '.' ((splitChar '/' url).getLastD "")).getLastD "")

/-- Fold that stops at the first raising step but keeps the state mutated
so far, mirroring exceptions escaping a Python loop over `self.*`. -/
def foldE {α : Type} (f : GDState → α → Except GDState GDState) :
    GDState → List α → Except GDState GDState
  | st, [] => .ok st
  | st, a :: as =>
    match f st a with
    | .ok st2 => foldE f st2 as
    | .error st2 => .error st2

/-- One `dataFile` entry: only extension `txt` is processed; the oracle
returning `none` models a download or parse exception. -/
def processFile (env : String → NOAAEvent → Option NOAATableModel)
    (ev : NOAAEvent) (st : GDState) (d : DataFile) : Except GDState GDState :=
  if fileExt d.fileUrl = "txt" then
    match env d.fileUrl ev with
    | some t => .ok { st with data := st.data ++ t.data
                              params := odUpdate st.params t.params }
    | none => .error st
  else .ok st

/-- One site: build the event, append it, then process every data file of
every `paleoData` entry in order. -/
def processSite (env : String → NOAAEvent → Option NOAATableModel)
    (st : GDState) (s : Site) : Except GDState GDState :=
  match eventOfSite s with
  | none => .error st
  | some ev =>
    foldE (processFile env ev)
      { st with events := st.events ++ [ev] }
      (s.paleoData.flatMap (fun p => p.dataFile))

/-- `get_data`: reset the accumulators, then iterate `metadata['site']`;
a missing `site` key raises at once (with the freshly reset state). -/
def getData (env : String → NOAAEvent → Option NOAATableModel)
    (md : Metadata) : Except GDState GDState :=
  match md.site with
  | none => .error ⟨[], [], []⟩
  | some sites => foldE (processSite env) ⟨[], [], []⟩ sites

/-- `NOAADataSet.__init__` after the metadata is obtained: the three field
reads raise `KeyError` (fatal) when absent; `get_data` is called inside
`try/except`, so any exception it raises is logged and swallowed and the
partially mutated state is kept. -/
def buildDataSet (env : String → NOAAEvent → Option NOAATableModel)
    (id : Nat) (md : Metadata) : Except BuildError NOAADataSet :=
  match md.onlineResourceLink with
  | none => .error (.missingField "onlineResourceLink")
  | some link =>
    match md.doi with
    | none => .error (.missingField "doi")
    | some doi =>
      match md.studyName with
      | none => .error (.missingField "studyName")
      | some title =>
        let st : GDState :=
          match getData env md with
          | .ok st => st
          | .error st => st
        .ok ⟨id, link, doi, title, st.events, st.params, st.data⟩

/-! ## Decimal representation of naturals

`str(i)` in Python and `toString (i : Nat)` in the embedding agree; the
facts needed about it (non-emptiness and injectivity) are proved against
core's `Nat.repr` through the fuel-free recursion below. -/

def decChars (n : Nat) : List Char :=
  if n < 10 then [Nat.digitChar n]
  else decChars (n / 10) ++ [Nat.digitChar (n % 10)]
decreasing_by exact Nat.div_lt_self (by omega) (by omega)

/-! ## Facts about the decimal representation -/

theorem toDigitsCore_eq_decChars (fuel : Nat) :
    ∀ (n : Nat) (ds : List Char), n < fuel →
      Nat.toDigitsCore 10 fuel n ds = decChars n ++ ds := by
  induction fuel with
  | zero => intro n ds h; omega
  | succ fuel ih =>
    intro n ds h
    by_cases h10 : n < 10
    · have hdiv : n / 10 = 0 := Nat.div_eq_of_lt h10
      have hmod : n % 10 = n := Nat.mod_eq_of_lt h10
      rw [decChars]
      simp [Nat.toDigitsCore, hdiv, hmod, h10]
    · have hdiv : n / 10 ≠ 0 := by omega
      have hlt : n / 10 < fuel := by
        have h1 : n / 10 < n := Nat.div_lt_self (by omega) (by omega)
        omega
      rw [decChars]
      simp only [Nat.toDigitsCore, hdiv, if_false, h10]
      rw [ih (n / 10) _ hlt]
      simp

theorem decChars_ne_nil (n : Nat) : decChars n ≠ [] := by
  rw [decChars]
  split <;> simp

theorem digitChar_inj_lt (a b : Nat) (ha : a < 10) (hb : b < 10)
    (h : Nat.digitChar a = Nat.digitChar b) : a = b := by
  have key : ∀ x : Fin 10, ∀ y : Fin 10,
      Nat.digitChar x.val = Nat.digitChar y.val → x = y := by decide
  have := key ⟨a, ha⟩ ⟨b, hb⟩ h
  exact congrArg Fin.val this

theorem decChars_inj : ∀ m n : Nat, decChars m = decChars n → m = n := by
  intro m
  induction m using Nat.strong_induction_on with
  | _ m ih =>
    intro n h
    have hmeq : decChars m =
        if m < 10 then [Nat.digitChar m]
        else decChars (m / 10) ++ [Nat.digitChar (m % 10)] := by
      rw [decChars]
    have hneq : decChars n =
        if n < 10 then [Nat.digitChar n]
        else decChars (n / 10) ++ [Nat.digitChar (n % 10)] := by
      rw [decChars]
    rw [hmeq, hneq] at h
    by_cases hm : m < 10 <;> by_cases hn : n < 10
    · rw [if_pos hm, if_pos hn] at h
      exact digitChar_inj_lt m n hm hn (List.cons.inj h).1
    · exfalso
      rw [if_pos hm, if_neg hn] at h
      have hlen := congrArg List.length h
      have hpos : 0 < (decChars (n / 10)).length :=
        List.length_pos.mpr (decChars_ne_nil (n / 10))
      simp only [List.length_append, List.length_cons, List.length_nil] at hlen
      omega
    · exfalso
      rw [if_neg hm, if_pos hn] at h
      have hlen := congrArg List.length h
      have hpos : 0 < (decChars (m / 10)).length :=
        List.length_pos.mpr (decChars_ne_nil (m / 10))
      simp only [List.length_append, List.length_cons, List.length_nil] at hlen
      omega
    · rw [if_neg hm, if_neg hn] at h
      have hparts := List.append_inj' h (by rfl)
      have hdiv : m / 10 = n / 10 :=
        ih (m / 10) (Nat.div_lt_self (by omega) (by omega)) (n / 10) hparts.1
      have hmod : m % 10 = n % 10 :=
        digitChar_inj_lt _ _ (Nat.mod_lt _ (by omega)) (Nat.mod_lt _ (by omega))
          (List.cons.inj hparts.2).1
      omega

theorem repr_data_eq_decChars (n : Nat) : (Nat.repr n).data = decChars n := by
  show (Nat.toDigits 10 n).asString.data = decChars n
  rw [Nat.toDigits, toDigitsCore_eq_decChars (n + 1) n [] (Nat.lt_succ_self n)]
  simp [List.asString]

theorem natRepr_injective (m n : Nat) (h : Nat.repr m = Nat.repr n) : m = n := by
  apply decChars_inj
  rw [← repr_data_eq_decChars, ← repr_data_eq_decChars, h]

theorem natRepr_ne_empty (n : Nat) : Nat.repr n ≠ "" := by
  intro h
  have hdata := congrArg String.data h
  rw [repr_data_eq_decChars] at hdata
  simp at hdata
  exact decChars_ne_nil n hdata

theorem toString_nat_eq_repr (n : Nat) : toString n = Nat.repr n := rfl

/-! ## Positional characterization of the renaming -/

theorem resolveAux_eq_map (d : String → List String) (cols : List String) :
    resolveAux d cols =
      (List.range cols.length).map (fun j =>
        emitName ((d (cols.getD j "")).drop ((cols.take j).count (cols.getD j "")))
          (cols.getD j "")) := by
  induction cols generalizing d with
  | nil => rfl
  | cons x xs ih =>
    rw [List.length_cons, List.range_succ_eq_map, List.map_cons, List.map_map]
    have htail : ∀ d' : String → List String,
        (∀ y, y ≠ x → d' y = d y) → ((d x).drop 1 = d' x) →
        resolveAux d' xs =
          (List.range xs.length).map
            ((fun j =>
              emitName ((d ((x :: xs).getD j "")).drop
                (((x :: xs).take j).count ((x :: xs).getD j "")))
                ((x :: xs).getD j "")) ∘ Nat.succ) := by
      intro d' hne hx
      rw [ih d']
      apply List.map_congr_left
      intro j _
      simp only [Function.comp_apply, List.getD_cons_succ, List.take_succ_cons]
      by_cases hyx : xs.getD j "" = x
      · rw [hyx, ← hx, List.count_cons_self, List.drop_drop, Nat.add_comm]
      · rw [hne _ hyx, List.count_cons_of_ne hyx]
    cases hdx : d x with
    | nil =>
      have hL : resolveAux d (x :: xs) = x :: resolveAux d xs := by
        simp only [resolveAux, hdx]
      rw [hL, htail d (fun _ _ => rfl) (by simp [hdx])]
      simp only [List.getD_cons_zero, List.take_zero, List.count_nil, List.drop_zero, hdx]
      rfl
    | cons s rest =>
      have hL : resolveAux d (x :: xs) =
          (x ++ s) :: resolveAux (fun y => if y = x then rest else d y) xs := by
        simp only [resolveAux, hdx]
      rw [hL, htail (fun y => if y = x then rest else d y)
            (fun y hy => by simp only [if_neg hy]) (by simp [hdx])]
      simp only [List.getD_cons_zero, List.take_zero, List.count_nil, List.drop_zero, hdx]
      rfl

theorem length_resolveColumns (cols : List String) :
    (resolveColumns cols).length = cols.length := by
  rw [resolveColumns, resolveAux_eq_map]
  simp

theorem count_take_lt (cols : List String) (p : Nat) (hp : p < cols.length) :
    (cols.take p).count (cols.getD p "") < cols.count (cols.getD p "") := by
  have hx : cols[p]? = some (cols.getD p "") := by
    rw [List.getD_eq_getElem _ _ hp]
    exact List.getElem?_eq_getElem hp
  have htake : cols.take (p + 1) = cols.take p ++ [cols.getD p ""] := by
    rw [List.take_succ, hx]
    rfl
  have hsplit := List.take_append_drop (p + 1) cols
  have hcount : (cols.take (p + 1)).count (cols.getD p "") +
      (cols.drop (p + 1)).count (cols.getD p "") = cols.count (cols.getD p "") := by
    rw [← List.count_append, hsplit]
  rw [htake, List.count_append, List.count_singleton_self] at hcount
  omega

theorem suffixPool_getElem (b k : Nat) (h : k < (suffixPool b).length) :
    (suffixPool b)[k] = if k = 0 then "" else toString k := by
  simp [suffixPool]

theorem resolveColumns_getD (cols : List String) (p : Nat) (hp : p < cols.length) :
    (resolveColumns cols).getD p "" =
      if 1 < cols.count (cols.getD p "") then
        (if (cols.take p).count (cols.getD p "") = 0 then cols.getD p ""
         else cols.getD p "" ++ toString ((cols.take p).count (cols.getD p "")))
      else cols.getD p "" := by
  rw [resolveColumns, resolveAux_eq_map]
  have hlen : p < ((List.range cols.length).map (fun j =>
      emitName ((initPool cols (cols.getD j "")).drop
        ((cols.take j).count (cols.getD j ""))) (cols.getD j ""))).length := by
    simpa using hp
  rw [List.getD_eq_getElem _ _ hlen, List.getElem_map, List.getElem_range]
  by_cases hc : 1 < cols.count (cols.getD p "")
  · rw [if_pos hc, initPool, if_pos hc]
    have hk : (cols.take p).count (cols.getD p "") < cols.count (cols.getD p "") :=
      count_take_lt cols p hp
    have hk2 : (cols.take p).count (cols.getD p "") <
        (suffixPool (cols.count (cols.getD p ""))).length := by
      rw [suffixPool, List.length_map, List.length_range]
      exact hk
    rw [List.drop_eq_getElem_cons hk2]
    show (cols.getD p "") ++ _ = _
    rw [suffixPool_getElem _ _ hk2]
    by_cases hk0 : (cols.take p).count (cols.getD p "") = 0
    · rw [if_pos hk0, if_pos hk0, String.append_empty]
    · rw [if_neg hk0, if_neg hk0]
  · rw [if_neg hc, initPool, if_neg hc, List.drop_nil]
    rfl

/-! ## Distinctness of the resolved names -/

theorem getD_mem (cols : List String) (p : Nat) (hp : p < cols.length) :
    cols.getD p "" ∈ cols := by
  rw [List.getD_eq_getElem _ _ hp]
  exact List.getElem_mem hp

theorem take_succ_getD (cols : List String) (p : Nat) (hp : p < cols.length) :
    cols.take (p + 1) = cols.take p ++ [cols.getD p ""] := by
  have hx : cols[p]? = some (cols.getD p "") := by
    rw [List.getD_eq_getElem _ _ hp]
    exact List.getElem?_eq_getElem hp
  rw [List.take_succ, hx]
  rfl

theorem count_take_mono (cols : List String) (x : String) {i j : Nat} (hij : i ≤ j) :
    (cols.take i).count x ≤ (cols.take j).count x :=
  List.Sublist.count_le ((List.take_prefix_take_left cols hij).sublist) x

theorem count_take_strict (cols : List String) {i j : Nat} (hij : i < j)
    (hi : i < cols.length) :
    (cols.take i).count (cols.getD i "") + 1 ≤ (cols.take j).count (cols.getD i "") := by
  have h1 : (cols.take (i + 1)).count (cols.getD i "") =
      (cols.take i).count (cols.getD i "") + 1 := by
    rw [take_succ_getD cols i hi, List.count_append, List.count_singleton_self]
  have h2 := count_take_mono cols (cols.getD i "") (show i + 1 ≤ j by omega)
  omega

theorem resolveColumns_nodup (cols : List String)
    (hpf : ∀ x ∈ cols, ∀ y ∈ cols, x ≠ y → ¬ x.data <+: y.data) :
    (resolveColumns cols).Nodup := by
  have hlen := length_resolveColumns cols
  apply List.pairwise_iff_get.mpr
  intro i j hij heq
  have hi : i.val < cols.length := by
    have := i.isLt
    omega
  have hj : j.val < cols.length := by
    have := j.isLt
    omega
  have hmi : cols.getD i.val "" ∈ cols := getD_mem cols i.val hi
  have hmj : cols.getD j.val "" ∈ cols := getD_mem cols j.val hj
  have hgi : (resolveColumns cols).get i = (resolveColumns cols).getD i.val "" := by
    rw [List.getD_eq_getElem _ _ i.isLt, List.get_eq_getElem]
  have hgj : (resolveColumns cols).get j = (resolveColumns cols).getD j.val "" := by
    rw [List.getD_eq_getElem _ _ j.isLt, List.get_eq_getElem]
  rw [hgi, hgj] at heq
  have formI : ((resolveColumns cols).getD i.val "" = cols.getD i.val "" ∧
      (cols.count (cols.getD i.val "") ≤ 1 ∨ (cols.take i.val).count (cols.getD i.val "") = 0)) ∨
      ((resolveColumns cols).getD i.val "" =
        cols.getD i.val "" ++ toString ((cols.take i.val).count (cols.getD i.val "")) ∧
        0 < (cols.take i.val).count (cols.getD i.val "")) := by
    rw [resolveColumns_getD cols i.val hi]
    by_cases h1 : 1 < cols.count (cols.getD i.val "")
    · by_cases h2 : (cols.take i.val).count (cols.getD i.val "") = 0
      · exact Or.inl ⟨by rw [if_pos h1, if_pos h2], Or.inr h2⟩
      · exact Or.inr ⟨by rw [if_pos h1, if_neg h2], Nat.pos_of_ne_zero h2⟩
    · exact Or.inl ⟨by rw [if_neg h1], Or.inl (by omega)⟩
  have formJ : ((resolveColumns cols).getD j.val "" = cols.getD j.val "" ∧
      (cols.count (cols.getD j.val "") ≤ 1 ∨ (cols.take j.val).count (cols.getD j.val "") = 0)) ∨
      ((resolveColumns cols).getD j.val "" =
        cols.getD j.val "" ++ toString ((cols.take j.val).count (cols.getD j.val "")) ∧
        0 < (cols.take j.val).count (cols.getD j.val "")) := by
    rw [resolveColumns_getD cols j.val hj]
    by_cases h1 : 1 < cols.count (cols.getD j.val "")
    · by_cases h2 : (cols.take j.val).count (cols.getD j.val "") = 0
      · exact Or.inl ⟨by rw [if_pos h1, if_pos h2], Or.inr h2⟩
      · exact Or.inr ⟨by rw [if_pos h1, if_neg h2], Nat.pos_of_ne_zero h2⟩
    · exact Or.inl ⟨by rw [if_neg h1], Or.inl (by omega)⟩
  rcases formI with ⟨hIe, hIc⟩ | ⟨hIe, hIk⟩ <;> rcases formJ with ⟨hJe, hJc⟩ | ⟨hJe, hJk⟩
  · -- both bare: the names coincide, yet j is then a later duplicate of i
    rw [hIe, hJe] at heq
    have hs := count_take_strict cols hij hi
    rw [heq] at hs
    have hlt := count_take_lt cols j.val hj
    rcases hJc with h | h <;> omega
  · -- i bare, j suffixed: the bare name extends the other by a numeral
    rw [hIe, hJe] at heq
    have hd := congrArg String.data heq
    rw [String.data_append] at hd
    have hsne : (toString ((cols.take j.val).count (cols.getD j.val ""))).data ≠ [] := by
      intro h0
      exact natRepr_ne_empty _ (String.ext h0)
    have hne : cols.getD i.val "" ≠ cols.getD j.val "" := by
      intro hxx
      rw [hxx] at hd
      exact hsne (List.self_eq_append_right.mp hd)
    exact hpf (cols.getD j.val "") hmj (cols.getD i.val "") hmi (Ne.symm hne) ⟨_, hd.symm⟩
  · -- i suffixed, j bare: symmetric
    rw [hIe, hJe] at heq
    have hd := congrArg String.data heq
    rw [String.data_append] at hd
    have hsne : (toString ((cols.take i.val).count (cols.getD i.val ""))).data ≠ [] := by
      intro h0
      exact natRepr_ne_empty _ (String.ext h0)
    have hne : cols.getD i.val "" ≠ cols.getD j.val "" := by
      intro hxx
      rw [← hxx] at hd
      exact hsne (List.append_right_eq_self.mp hd)
    exact hpf (cols.getD i.val "") hmi (cols.getD j.val "") hmj hne ⟨_, hd⟩
  · -- both suffixed
    rw [hIe, hJe] at heq
    by_cases hxx : cols.getD i.val "" = cols.getD j.val ""
    · rw [← hxx] at heq
      have hd := congrArg String.data heq
      rw [String.data_append, String.data_append] at hd
      have hks := String.ext (List.append_cancel_left hd)
      rw [toString_nat_eq_repr, toString_nat_eq_repr] at hks
      have hkk := natRepr_injective _ _ hks
      have hstrict := count_take_strict cols hij hi
      omega
    · have hd := congrArg String.data heq
      rw [String.data_append, String.data_append] at hd
      have hp1 : (cols.getD i.val "").data <+:
          (cols.getD i.val "").data ++
            (toString ((cols.take i.val).count (cols.getD i.val ""))).data := ⟨_, rfl⟩
      have hp2 : (cols.getD j.val "").data <+:
          (cols.getD i.val "").data ++
            (toString ((cols.take i.val).count (cols.getD i.val ""))).data := ⟨_, hd.symm⟩
      rcases List.prefix_or_prefix_of_prefix hp1 hp2 with h | h
      · rcases h with ⟨t, ht⟩
        by_cases htn : t = []
        · rw [htn, List.append_nil] at ht
          exact hxx (String.ext ht)
        · exact hpf (cols.getD i.val "") hmi (cols.getD j.val "") hmj hxx ⟨t, ht⟩
      · rcases h with ⟨t, ht⟩
        by_cases htn : t = []
        · rw [htn, List.append_nil] at ht
          exact hxx (String.ext ht).symm
        · exact hpf (cols.getD j.val "") hmj (cols.getD i.val "") hmi (Ne.symm hxx) ⟨t, ht⟩

/-! ## Lookup semantics of the `OrderedDict.update` model -/

theorem lookup_none_of_no_key (m : List (String × NOAAParam)) (k : String)
    (h : ¬m.any (fun p => p.1 == k) = true) : m.lookup k = none := by
  rw [List.lookup_eq_none_iff]
  intro p hp
  have h2 : p.1 ≠ k := by
    intro he
    exact h (List.any_eq_true.mpr ⟨p, hp, by simp [he]⟩)
  simpa [bne_iff_ne] using Ne.symm h2

theorem lookup_map_overwrite_ne (m : List (String × NOAAParam)) (k : String)
    (v : NOAAParam) (k' : String) (h : k' ≠ k) :
    (m.map (fun p => if p.1 = k then (k, v) else p)).lookup k' = m.lookup k' := by
  induction m with
  | nil => rfl
  | cons p rest ih =>
    obtain ⟨kp, vp⟩ := p
    by_cases hpk : kp = k
    · subst hpk
      simp only [List.map_cons, if_pos rfl]
      rw [List.lookup_cons, List.lookup_cons]
      have hb : (k' == kp) = false := by simp [h]
      simp [hb, ih]
    · simp only [List.map_cons, if_neg hpk]
      rw [List.lookup_cons, List.lookup_cons]
      cases hb : (k' == kp)
      · simp only [hb]
        exact ih
      · simp only [hb]

theorem lookup_map_overwrite_self (m : List (String × NOAAParam)) (k : String)
    (v : NOAAParam) (h : m.any (fun p => p.1 == k) = true) :
    (m.map (fun p => if p.1 = k then (k, v) else p)).lookup k = some v := by
  induction m with
  | nil => simp at h
  | cons p rest ih =>
    obtain ⟨kp, vp⟩ := p
    by_cases hpk : kp = k
    · subst hpk
      simp only [List.map_cons, if_pos rfl]
      rw [List.lookup_cons]
      simp
    · simp only [List.map_cons, if_neg hpk]
      rw [List.lookup_cons]
      have hb : (k == kp) = false := by simp [Ne.symm hpk]
      simp only [hb]
      apply ih
      simp only [List.any_cons, Bool.or_eq_true, beq_iff_eq] at h
      rcases h with h | h
      · exact absurd h hpk
      · exact h

theorem lookup_odInsert (m : List (String × NOAAParam)) (k : String) (v : NOAAParam)
    (k' : String) :
    (odInsert m k v).lookup k' = if k' = k then some v else m.lookup k' := by
  rw [odInsert]
  by_cases hany : m.any (fun p => p.1 == k) = true
  · rw [if_pos hany]
    by_cases hk : k' = k
    · subst hk
      rw [if_pos rfl, lookup_map_overwrite_self m k' v hany]
    · rw [if_neg hk, lookup_map_overwrite_ne m k v k' hk]
  · rw [if_neg hany, List.lookup_append]
    by_cases hk : k' = k
    · subst hk
      rw [lookup_none_of_no_key m k' hany, if_pos rfl]
      simp
    · rw [if_neg hk]
      have hb : (k' == k) = false := by simp [hk]
      cases hq : m.lookup k'
      · simp [List.lookup_cons, hb]
      · simp

theorem lookup_odUpdate (m t : List (String × NOAAParam)) (k : String) :
    (odUpdate m t).lookup k = (t.reverse.lookup k).or (m.lookup k) := by
  induction t generalizing m with
  | nil => rfl
  | cons p rest ih =>
    obtain ⟨kp, vp⟩ := p
    show (odUpdate (odInsert m kp vp) rest).lookup k = _
    rw [ih, List.reverse_cons, List.lookup_append, Option.or_assoc]
    congr 1
    rw [lookup_odInsert]
    by_cases hk : k = kp
    · subst hk
      simp [List.lookup_cons]
    · have hb : (k == kp) = false := by simp [hk]
      simp [List.lookup_cons, hb, hk]

theorem lookup_reverse_of_nodupkeys (t : List (String × NOAAParam))
    (h : (t.map Prod.fst).Nodup) (k : String) :
    t.reverse.lookup k = t.lookup k := by
  induction t with
  | nil => rfl
  | cons p rest ih =>
    obtain ⟨kp, vp⟩ := p
    simp only [List.map_cons, List.nodup_cons] at h
    rw [List.reverse_cons, List.lookup_append, ih h.2]
    by_cases hk : k = kp
    · subst hk
      have hnone : rest.lookup k = none := by
        rw [List.lookup_eq_none_iff]
        intro q hq
        have : q.1 ∈ rest.map Prod.fst := List.mem_map_of_mem Prod.fst hq
        have hne : k ≠ q.1 := fun he => h.1 (he ▸ this)
        simpa [bne_iff_ne] using hne
      rw [hnone]
      simp [List.lookup_cons]
    · have hb : (k == kp) = false := by simp [hk]
      have hsing : List.lookup k [(kp, vp)] = none := by
        rw [List.lookup_cons]
        simp [hb]
      have hcons : List.lookup k ((kp, vp) :: rest) = List.lookup k rest := by
        rw [List.lookup_cons]
        simp [hb]
      rw [hsing, hcons, Option.or_none]

theorem foldl_odUpdate_lookup (ts : List (List (String × NOAAParam))) (k : String) :
    ∀ m, ((ts.foldl odUpdate m).lookup k) =
      ts.foldl (fun acc t => (t.reverse.lookup k).or acc) (m.lookup k) := by
  induction ts with
  | nil => intro m; rfl
  | cons t rest ih =>
    intro m
    show ((rest.foldl odUpdate (odUpdate m t)).lookup k) = _
    rw [ih (odUpdate m t), lookup_odUpdate]
    rfl

theorem foldl_or_eq_lastWins (ts : List (List (String × NOAAParam))) (k : String)
    (h : ∀ t ∈ ts, (t.map Prod.fst).Nodup) :
    ∀ acc, ts.foldl (fun acc t => (t.reverse.lookup k).or acc) acc =
      ts.foldl (fun acc t =>
        match List.lookup k t with
        | some v => some v
        | none => acc) acc := by
  induction ts with
  | nil => intro acc; rfl
  | cons t rest ih =>
    intro acc
    show rest.foldl _ ((t.reverse.lookup k).or acc) = rest.foldl _ _
    rw [lookup_reverse_of_nodupkeys t (h t (List.mem_cons_self t rest)) k]
    have hstep : (t.lookup k).or acc =
        (match List.lookup k t with
         | some v => some v
         | none => acc) := by
      cases List.lookup k t <;> rfl
    rw [hstep, ih (fun t ht => h t (List.mem_cons_of_mem _ ht))]

theorem matchStep_eq_or (acc : Option NOAAParam) (t : List (String × NOAAParam))
    (k : String) :
    (match List.lookup k t with
     | some v => some v
     | none => acc) = (List.lookup k t).or acc := by
  cases List.lookup k t <;> rfl

theorem lastWins_eq_or_foldl (ts : List (List (String × NOAAParam))) (k : String) :
    ∀ acc, ts.foldl (fun acc t =>
        match List.lookup k t with
        | some v => some v
        | none => acc) acc =
      ts.foldl (fun acc t => (List.lookup k t).or acc) acc := by
  induction ts with
  | nil => intro acc; rfl
  | cons t rest ih =>
    intro acc
    rw [List.foldl_cons, List.foldl_cons, matchStep_eq_or, ih]

theorem or_foldl_isSome (ts : List (List (String × NOAAParam))) (k : String) :
    ∀ acc : Option NOAAParam,
      ((ts.foldl (fun acc t => (List.lookup k t).or acc) acc).isSome = true) ↔
        ((∃ t ∈ ts, (List.lookup k t).isSome = true) ∨ acc.isSome = true) := by
  induction ts with
  | nil => intro acc; simp
  | cons t rest ih =>
    intro acc
    rw [List.foldl_cons, ih]
    simp only [Option.isSome_or, Bool.or_eq_true, List.mem_cons]
    constructor
    · rintro (⟨t2, ht2, hs⟩ | (h | h))
      · exact Or.inl ⟨t2, Or.inr ht2, hs⟩
      · exact Or.inl ⟨t, Or.inl rfl, h⟩
      · exact Or.inr h
    · rintro (⟨t2, ht2 | ht2, hs⟩ | h)
      · subst ht2
        exact Or.inr (Or.inl hs)
      · exact Or.inl ⟨t2, ht2, hs⟩
      · exact Or.inr (Or.inr h)

theorem mergeAllParams_lookup (ts : List (List (String × NOAAParam)))
    (h : ∀ t ∈ ts, (t.map Prod.fst).Nodup) (k : String) :
    (mergeAllParams ts).lookup k = lastWins ts k := by
  rw [mergeAllParams, foldl_odUpdate_lookup ts k [], foldl_or_eq_lastWins ts k h]
  rfl

theorem lastWins_isSome_iff (ts : List (List (String × NOAAParam))) (k : String) :
    ((lastWins ts k).isSome = true) ↔ ∃ t ∈ ts, (List.lookup k t).isSome = true := by
  rw [lastWins, lastWins_eq_or_foldl ts k none, or_foldl_isSome ts k none]
  simp

/-! ## Claims -/

/-- C1, counterexample: with `geo.geometry.coordinates = [10, 20]` the code
assigns the first element to the Event's latitude and the second to its
longitude, so the Event the claim predicts (longitude 10, latitude 20)
is not the one built. -/
theorem c1_coords_counterexample :
    eventOfSite ⟨"S", [10, 20], []⟩ = some ⟨"S", 10, 20⟩ ∧
    eventOfSite ⟨"S", [10, 20], []⟩ ≠ some ⟨"S", 20, 10⟩ := by
  constructor <;> decide

/-- C1, amended: the Event built by `get_data` stores the first element of
`geo.geometry.coordinates` as its latitude and the second as its
longitude (the opposite of the claimed assignment). -/
theorem c1_coords_amended (s : Site) (c0 c1 : ℚ)
    (h0 : s.coordinates[0]? = some c0) (h1 : s.coordinates[1]? = some c1) :
    eventOfSite s = some ⟨s.siteName, c0, c1⟩ := by
  rw [eventOfSite, h0, h1]

/-- C1, witness for the amended theorem at coordinates `[10, 20]`. -/
theorem c1_coords_amended_witness :
    eventOfSite ⟨"S", [10, 20], []⟩ = some ⟨"S", 10, 20⟩ :=
  c1_coords_amended ⟨"S", [10, 20], []⟩ 10 20 rfl rfl

/-- C2, counterexample: a metadata document with `onlineResourceLink`,
`doi` and `studyName` present but `site` missing builds successfully with
empty events, parameters and data — the missing `site` is swallowed by
the `try/except` around `get_data`, not a fatal error. -/
theorem c2_required_fields_counterexample :
    buildDataSet (fun _ _ => none) 1 ⟨some "L", some "D", some "T", none⟩ =
      Except.ok ⟨1, "L", "D", "T", [], [], []⟩ := rfl

/-- C2, amended: a missing `onlineResourceLink`, `doi` or `studyName`
aborts the build with an error, in that order of checking; a missing
`site` does not abort: the build completes with empty events, parameters
and data. -/
theorem c2_required_fields_amended
    (env : String → NOAAEvent → Option NOAATableModel) (id : Nat) (md : Metadata) :
    (md.onlineResourceLink = none →
      buildDataSet env id md = Except.error (BuildError.missingField "onlineResourceLink")) ∧
    (∀ l, md.onlineResourceLink = some l → md.doi = none →
      buildDataSet env id md = Except.error (BuildError.missingField "doi")) ∧
    (∀ l d, md.onlineResourceLink = some l → md.doi = some d → md.studyName = none →
      buildDataSet env id md = Except.error (BuildError.missingField "studyName")) ∧
    (∀ l d t, md.onlineResourceLink = some l → md.doi = some d → md.studyName = some t →
      md.site = none →
      buildDataSet env id md = Except.ok ⟨id, l, d, t, [], [], []⟩) := by
  refine ⟨?_, ?_, ?_, ?_⟩
  · intro h
    rw [buildDataSet, h]
  · intro l h1 h2
    rw [buildDataSet, h1, h2]
  · intro l d h1 h2 h3
    rw [buildDataSet, h1, h2, h3]
  · intro l d t h1 h2 h3 h4
    rw [buildDataSet, h1, h2, h3, getData, h4]

/-- C2, witness: each branch of the amended theorem at a concrete document. -/
theorem c2_required_fields_amended_witness :
    buildDataSet (fun _ _ => none) 1 ⟨none, some "D", some "T", some []⟩ =
      Except.error (BuildError.missingField "onlineResourceLink") ∧
    buildDataSet (fun _ _ => none) 1 ⟨some "L", some "D", some "T", none⟩ =
      Except.ok ⟨1, "L", "D", "T", [], [], []⟩ :=
  ⟨(c2_required_fields_amended (fun _ _ => none) 1 _).1 rfl,
   (c2_required_fields_amended (fun _ _ => none) 1 _).2.2.2 "L" "D" "T" rfl rfl rfl rfl⟩

/-- C3, counterexample: on input `["a", "a", "a1"]` — which contains the
suffixed name `"a1"` alongside duplicates of `"a"` — the resolver outputs
`["a", "a1", "a1"]`: same length, but not pairwise distinct. -/
theorem c3_unique_names_counterexample :
    resolveColumns ["a", "a", "a1"] = ["a", "a1", "a1"] ∧
    ¬(resolveColumns ["a", "a", "a1"]).Nodup := by
  constructor <;> decide

/-- C3, amended: the output always has the same length as the input, and
the output names are pairwise distinct provided no input name is a
strict prefix of another input name (which excludes pre-suffixed inputs
such as `"a1"` next to duplicated `"a"`). -/
theorem c3_unique_names_amended (cols : List String) :
    (resolveColumns cols).length = cols.length ∧
    ((∀ x ∈ cols, ∀ y ∈ cols, x ≠ y → ¬x.data <+: y.data) →
      (resolveColumns cols).Nodup) :=
  ⟨length_resolveColumns cols, fun h => resolveColumns_nodup cols h⟩

/-- C3, witness for the amended theorem on `["a", "b", "a", "a"]`. -/
theorem c3_unique_names_amended_witness :
    (resolveColumns ["a", "b", "a", "a"]).length = 4 ∧
    (resolveColumns ["a", "b", "a", "a"]).Nodup :=
  ⟨(c3_unique_names_amended ["a", "b", "a", "a"]).1,
   (c3_unique_names_amended ["a", "b", "a", "a"]).2 (by decide)⟩

/-- C4, counterexample: in the `NOAAStudy.get_data` ingestion path the
missing-value list is `[-999.00]` only, so a field holding `-9999.00`
stays the literal number instead of becoming "no data". -/
theorem c4_sentinels_counterexample :
    convertCell studyGetDataNaValues (-9999) = Cell.val (-9999) ∧
    convertCell studyGetDataNaValues (-9999) ≠ Cell.na := by
  constructor <;> decide

/-- C4, amended: `NOAATable.from_txtfile` maps both `-999.00` and
`-9999.00` to "no data"; the `NOAAStudy.get_data`/`inspect_data` paths
map only `-999.00`, and `-9999.00` remains a literal value there. -/
theorem c4_sentinels_amended :
    convertCell fromTxtfileNaValues (-999) = Cell.na ∧
    convertCell fromTxtfileNaValues (-9999) = Cell.na ∧
    convertCell studyGetDataNaValues (-999) = Cell.na ∧
    convertCell studyGetDataNaValues (-9999) = Cell.val (-9999) := by
  refine ⟨by decide, by decide, by decide, by decide⟩

/-- C5: the header-skip accounting is exactly the two-counter algorithm
(comment line: `skip += 1 + gap; gap = 0`; other line: `gap += 1`), and
on `["#h1", "#h2", "data1", "#h3", "data2"]` the running value is 2
after the first two lines and 4 from `"#h3"` on. -/
theorem c5_skip_accounting :
    (∀ skip gap : Nat, ∀ l : String, strStartsWith l ("#") = true →
      skipStep (skip, gap) l = (skip + 1 + gap, 0)) ∧
    (∀ skip gap : Nat, ∀ l : String, strStartsWith l ("#") = false →
      skipStep (skip, gap) l = (skip, gap + 1)) ∧
    skiprowsOf ["#h1", "#h2"] = 2 ∧
    skiprowsOf ["#h1", "#h2", "data1", "#h3"] = 4 ∧
    skiprowsOf ["#h1", "#h2", "data1", "#h3", "data2"] = 4 := by
  refine ⟨?_, ?_, by decide, by decide, by decide⟩
  · intro skip gap l h
    rw [skipStep, if_pos h]
  · intro skip gap l h
    rw [skipStep, if_neg (by simp [h])]

/-- C5, witness: one comment-line step and one data-line step evaluated. -/
theorem c5_skip_accounting_witness :
    skipStep (2, 1) "#h3" = (4, 0) ∧ skipStep (0, 0) "data1" = (0, 1) :=
  ⟨c5_skip_accounting.1 2 1 "#h3" (by decide),
   c5_skip_accounting.2.1 0 0 "data1" (by decide)⟩

/-- C6: a name occurring exactly once is output unchanged, the first
occurrence of any name is output bare, the occurrence with k earlier
copies (k ≥ 1) of a duplicated name gets suffix `str(k)`, and
`["a", "b", "a", "a"]` resolves to `["a", "b", "a1", "a2"]`. -/
theorem c6_suffix_scheme :
    (∀ cols : List String, ∀ p : Nat, p < cols.length →
      cols.count (cols.getD p "") = 1 →
      (resolveColumns cols).getD p "" = cols.getD p "") ∧
    (∀ cols : List String, ∀ p : Nat, p < cols.length →
      (cols.take p).count (cols.getD p "") = 0 →
      (resolveColumns cols).getD p "" = cols.getD p "") ∧
    (∀ cols : List String, ∀ p : Nat, p < cols.length →
      1 < cols.count (cols.getD p "") →
      0 < (cols.take p).count (cols.getD p "") →
      (resolveColumns cols).getD p "" =
        cols.getD p "" ++ toString ((cols.take p).count (cols.getD p ""))) ∧
    resolveColumns ["a", "b", "a", "a"] = ["a", "b", "a1", "a2"] := by
  refine ⟨?_, ?_, ?_, by decide⟩
  · intro cols p hp h1
    rw [resolveColumns_getD cols p hp, if_neg (by omega)]
  · intro cols p hp h0
    rw [resolveColumns_getD cols p hp]
    by_cases hc : 1 < cols.count (cols.getD p "")
    · rw [if_pos hc, if_pos h0]
    · rw [if_neg hc]
  · intro cols p hp hc hk
    rw [resolveColumns_getD cols p hp, if_pos hc, if_neg (by omega)]

/-- C6, witness: the three positional statements applied on
`["a", "b", "a", "a"]` at positions 1, 0 and 2. -/
theorem c6_suffix_scheme_witness :
    (resolveColumns ["a", "b", "a", "a"]).getD 1 "" = ["a", "b", "a", "a"].getD 1 "" ∧
    (resolveColumns ["a", "b", "a", "a"]).getD 0 "" = ["a", "b", "a", "a"].getD 0 "" ∧
    (resolveColumns ["a", "b", "a", "a"]).getD 2 "" =
      ["a", "b", "a", "a"].getD 2 "" ++
        toString (((["a", "b", "a", "a"] : List String).take 2).count
          (["a", "b", "a", "a"].getD 2 "")) :=
  ⟨c6_suffix_scheme.1 ["a", "b", "a", "a"] 1 (by decide) (by decide),
   c6_suffix_scheme.2.1 ["a", "b", "a", "a"] 0 (by decide) (by decide),
   c6_suffix_scheme.2.2.1 ["a", "b", "a", "a"] 2 (by decide) (by decide) (by decide)⟩

/-- C7, counterexample: on `["a", "a"]` the second occurrence (0-indexed
j = 1) is suffixed with `str(1) = "1"`, not `str(j-1) = "0"` as claimed. -/
theorem c7_occurrence_suffix_counterexample :
    resolveColumns ["a", "a"] = ["a", "a1"] ∧
    resolveColumns ["a", "a"] ≠ ["a", "a0"] := by
  constructor <;> decide

/-- C7, amended: for a name with more than one occurrence, the j-th
occurrence (0-indexed, j computed as the count among the earlier
positions) is output bare when j = 0 and suffixed with `str(j)` —
not `str(j-1)` — otherwise. -/
theorem c7_occurrence_suffix_amended (cols : List String) (p : Nat)
    (hp : p < cols.length) (hdup : 1 < cols.count (cols.getD p "")) :
    (resolveColumns cols).getD p "" =
      (if (cols.take p).count (cols.getD p "") = 0 then cols.getD p ""
       else cols.getD p "" ++ toString ((cols.take p).count (cols.getD p ""))) := by
  rw [resolveColumns_getD cols p hp, if_pos hdup]

/-- C7, witness for the amended theorem at `["a", "a"]`, position 1. -/
theorem c7_occurrence_suffix_amended_witness :
    (resolveColumns ["a", "a"]).getD 1 "" =
      (if ((["a", "a"] : List String).take 1).count (["a", "a"].getD 1 "") = 0
       then ["a", "a"].getD 1 ""
       else ["a", "a"].getD 1 "" ++
         toString (((["a", "a"] : List String).take 1).count (["a", "a"].getD 1 ""))) :=
  c7_occurrence_suffix_amended ["a", "a"] 1 (by decide) (by decide)

/-- C8: the unit strings "cal ka BP", "kyr BP" and "Age_kyr" all
canonicalize to "ka BP", and a unit string that is not a key of the
synonym table passes through unchanged. -/
theorem c8_unit_canonicalization :
    (mkNOAAParam "age" "Age" (some "cal ka BP")).unit = some "ka BP" ∧
    (mkNOAAParam "age" "Age" (some "kyr BP")).unit = some "ka BP" ∧
    (mkNOAAParam "age" "Age" (some "Age_kyr")).unit = some "ka BP" ∧
    (∀ nm ln u : String, List.lookup u ages = none →
      (mkNOAAParam nm ln (some u)).unit = some u) := by
  refine ⟨by decide, by decide, by decide, ?_⟩
  intro nm ln u h
  simp [mkNOAAParam, h]

/-- C8, witness: "meters" is not in the table and passes through. -/
theorem c8_unit_canonicalization_witness :
    (mkNOAAParam "depth" "Depth" (some "meters")).unit = some "meters" :=
  c8_unit_canonicalization.2.2.2 "depth" "Depth" "meters" (by decide)

/-- C9: merging a sequence of parsed tables with `params.update` yields a
mapping whose keys are exactly the union of the tables' keys, and whose
value at a key is the one from the latest table containing it. -/
theorem c9_param_merge (ts : List (List (String × NOAAParam)))
    (h : ∀ t ∈ ts, (t.map Prod.fst).Nodup) :
    (∀ k, ((mergeAllParams ts).lookup k).isSome = true ↔
        ∃ t ∈ ts, (List.lookup k t).isSome = true) ∧
    (∀ k, (mergeAllParams ts).lookup k = lastWins ts k) := by
  refine ⟨fun k => ?_, fun k => mergeAllParams_lookup ts h k⟩
  rw [mergeAllParams_lookup ts h k, lastWins_isSome_iff]

/-- C9, witness: two tables sharing the key "a"; the later table wins. -/
theorem c9_param_merge_witness :
    (mergeAllParams [[("a", ⟨"a", "A1", none⟩), ("b", ⟨"b", "B", none⟩)],
        [("a", ⟨"a", "A2", none⟩)]]).lookup "a" =
      lastWins [[("a", ⟨"a", "A1", none⟩), ("b", ⟨"b", "B", none⟩)],
        [("a", ⟨"a", "A2", none⟩)]] "a" :=
  (c9_param_merge
    [[("a", ⟨"a", "A1", none⟩), ("b", ⟨"b", "B", none⟩)], [("a", ⟨"a", "A2", none⟩)]]
    (by decide)).2 "a"

/-- C10: the remainder of a parameter-declaration line is the line with
every occurrence of the name substring deleted: on
`"depth<TAB>depth below sea floor,,,m"` the `what` component loses its
leading "depth", while with a name ("d18O") that does not recur the
component is intact. -/
theorem c10_replace_all_occurrences :
    parseParamLine "depth\tdepth below sea floor,,,m" =
      some ⟨"depth", ["below sea floor", "", "", "m"]⟩ ∧
    parseParamLine "d18O\tdepth below sea floor,,,m" =
      some ⟨"d18O", ["depth below sea floor", "", "", "m"]⟩ := by
  constructor <;> decide
